import Mathlib

/-!
Shallow embedding of the `cdv` repository's core (`src/ctv.rs`): the BIP-119
CheckTemplateVerify hash (`util::ctv`), the recursive template model
(`Ctv` / `Output`), the spending-chain builder (`Ctv::spending_tx`), and the
two-branch vault locking script (`segwit::vault_locking_script`).

Machine integers are modelled as `Nat` (with explicit truncation where the
code casts), `i32` as `Int`.  Byte strings are `List Nat` with entries < 256.
Fallible Rust code (`anyhow::Result`) is modelled as `Except RErr`; a Rust
panic (e.g. `Amount` subtraction overflow, `unwrap`) is the distinguished
`RErr.panicked` outcome, which like an error propagates out of the enclosing
computation.
-/

/-- Errors of fallible Rust code: `err` models a returned `anyhow::Error`,
`panicked` models a Rust panic unwinding out of the computation. -/
inductive RErr where
  | err (msg : String) : RErr
  | panicked (msg : String) : RErr
  deriving DecidableEq

/-- Result of fallible Rust code. -/
abbrev RResult (α : Type) : Type := Except RErr α

/- ## Byte-level primitives (consensus encoding, rust-bitcoin) -/

/-- Two-byte little-endian encoding of the low 16 bits. -/
def le16 (n : Nat) : List Nat := [n % 256, n / 256 % 256]

/-- Four-byte little-endian encoding of the low 32 bits (as emitted by
`consensus_encode` for `u32`; truncation mirrors Rust `as u32` casts). -/
def le32 (n : Nat) : List Nat :=
  [n % 256, n / 256 % 256, n / 65536 % 256, n / 16777216 % 256]

/-- Eight-byte little-endian encoding of the low 64 bits (`u64`). -/
def le64 (n : Nat) : List Nat :=
  le32 n ++ le32 (n / 4294967296)

/-- Bitcoin variable-length integer (`VarInt`) consensus encoding. -/
def varint (n : Nat) : List Nat :=
  if n < 253 then [n]
  else if n ≤ 65535 then 253 :: le16 n
  else if n ≤ 4294967295 then 254 :: le32 n
  else 255 :: le64 n

/-- Consensus encoding of a script: varint length prefix, then the bytes. -/
def encodeScript (s : List Nat) : List Nat := varint s.length ++ s

/-- Little-endian encoding of an `i32` (two's complement), as emitted by
`consensus_encode` for `transaction::Version`. -/
def encVersion (v : Int) : List Nat := le32 (v % 4294967296).toNat

/- ## SHA-256 (the `sha2` crate's `Sha256`, FIPS 180-4) -/

namespace SHA256

/-- Word size modulus for 32-bit arithmetic. -/
def M32 : Nat := 4294967296

/-- Right rotation of a 32-bit word by `n` bits. -/
def rotr (n x : Nat) : Nat := (x / 2 ^ n) ||| (x % 2 ^ n * 2 ^ (32 - n))

/-- Choice function. -/
def ch (x y z : Nat) : Nat := (x &&& y) ^^^ ((x ^^^ 4294967295) &&& z)

/-- Majority function. -/
def maj (x y z : Nat) : Nat := (x &&& y) ^^^ (x &&& z) ^^^ (y &&& z)

/-- Big sigma-0. -/
def bsig0 (x : Nat) : Nat := rotr 2 x ^^^ rotr 13 x ^^^ rotr 22 x

/-- Big sigma-1. -/
def bsig1 (x : Nat) : Nat := rotr 6 x ^^^ rotr 11 x ^^^ rotr 25 x

/-- Small sigma-0. -/
def ssig0 (x : Nat) : Nat := rotr 7 x ^^^ rotr 18 x ^^^ (x / 8)

/-- Small sigma-1. -/
def ssig1 (x : Nat) : Nat := rotr 17 x ^^^ rotr 19 x ^^^ (x / 1024)

/-- Round constants. -/
def K : List Nat :=
  [1116352408, 1899447441, 3049323471, 3921009573, 961987163, 1508970993,
   2453635748, 2870763221, 3624381080, 310598401, 607225278, 1426881987,
   1925078388, 2162078206, 2614888103, 3248222580, 3835390401, 4022224774,
   264347078, 604807628, 770255983, 1249150122, 1555081692, 1996064986,
   2554220882, 2821834349, 2952996808, 3210313671, 3336571891, 3584528711,
   113926993, 338241895, 666307205, 773529912, 1294757372, 1396182291,
   1695183700, 1986661051, 2177026350, 2456956037, 2730485921, 2820302411,
   3259730800, 3345764771, 3516065817, 3600352804, 4094571909, 275423344,
   430227734, 506948616, 659060556, 883997877, 958139571, 1322822218,
   1537002063, 1747873779, 1955562222, 2024104815, 2227730452, 2361852424,
   2428436474, 2756734187, 3204031479, 3329325298]

/-- Working state: eight 32-bit words. -/
structure Hash8 where
  a : Nat
  b : Nat
  c : Nat
  d : Nat
  e : Nat
  f : Nat
  g : Nat
  h : Nat
  deriving DecidableEq

/-- Initial hash value. -/
def initH : Hash8 :=
  ⟨1779033703, 3144134277, 1013904242, 2773480762, 1359893119, 2600822924, 528734635, 1541459225⟩

/-- One compression round. -/
def step (st : Hash8) (kw : Nat × Nat) : Hash8 :=
  let t1 := (st.h + bsig1 st.e + ch st.e st.f st.g + kw.1 + kw.2) % M32
  let t2 := (bsig0 st.a + maj st.a st.b st.c) % M32
  ⟨(t1 + t2) % M32, st.a, st.b, st.c, (st.d + t1) % M32, st.e, st.f, st.g⟩

/-- Extend sixteen schedule words to sixty-four, accumulator reversed. -/
def schedRev : Nat → List Nat → List Nat
  | 0, acc => acc
  | n + 1, acc =>
    let w := (ssig1 (acc.getD 1 0) + acc.getD 6 0 + ssig0 (acc.getD 14 0) + acc.getD 15 0) % M32
    schedRev n (w :: acc)

/-- Message schedule for one block. -/
def schedule (ws : List Nat) : List Nat := (schedRev 48 ws.reverse).reverse

/-- Parse bytes into 32-bit big-endian words. -/
def beWords : List Nat → List Nat
  | b0 :: b1 :: b2 :: b3 :: rest => (((b0 * 256 + b1) * 256 + b2) * 256 + b3) :: beWords rest
  | _ => []

/-- Big-endian four-byte encoding of a 32-bit word. -/
def be4 (w : Nat) : List Nat := [w / 16777216 % 256, w / 65536 % 256, w / 256 % 256, w % 256]

/-- Big-endian eight-byte encoding of a 64-bit value. -/
def be8 (n : Nat) : List Nat := be4 (n / 4294967296 % 4294967296) ++ be4 (n % 4294967296)

/-- Compress one 64-byte block into the state. -/
def compressBlock (st : Hash8) (block : List Nat) : Hash8 :=
  let t := (K.zip (schedule (beWords block))).foldl step st
  ⟨(st.a + t.a) % M32, (st.b + t.b) % M32, (st.c + t.c) % M32, (st.d + t.d) % M32,
   (st.e + t.e) % M32, (st.f + t.f) % M32, (st.g + t.g) % M32, (st.h + t.h) % M32⟩

/-- Append the FIPS 180-4 padding: a `0x80` byte, zeros to 56 mod 64, and the
bit length as eight big-endian bytes. -/
def padMsg (msg : List Nat) : List Nat :=
  msg ++ 128 :: List.replicate ((64 - (msg.length + 9) % 64) % 64) 0 ++ be8 (msg.length * 8)

/-- Split into 64-byte chunks; the fuel argument keeps the recursion
structural so the kernel can evaluate it. -/
def chunksAux : Nat → List Nat → List (List Nat)
  | 0, _ => []
  | _, [] => []
  | fuel + 1, l => l.take 64 :: chunksAux fuel (l.drop 64)

/-- SHA-256 digest of a byte string, as a list of 32 bytes. -/
def sha256 (data : List Nat) : List Nat :=
  let padded := padMsg data
  let fin := (chunksAux padded.length padded).foldl compressBlock initH
  be4 fin.a ++ be4 fin.b ++ be4 fin.c ++ be4 fin.d ++ be4 fin.e ++ be4 fin.f ++ be4 fin.g ++ be4 fin.h

end SHA256

export SHA256 (sha256)

/- ## Transaction model (rust-bitcoin `Transaction` as used by `ctv.rs`) -/

/-- Transaction output: `value` in satoshis (`u64`), raw `script_pubkey`
bytes. -/
structure TxOut where
  value : Nat
  script_pubkey : List Nat
  deriving DecidableEq

/-- Reference to a previous transaction output. -/
structure OutPoint where
  txid : List Nat
  vout : Nat
  deriving DecidableEq

/-- Transaction input. -/
structure TxIn where
  previous_output : OutPoint
  script_sig : List Nat
  sequence : Nat
  witness : List (List Nat)
  deriving DecidableEq

/-- The all-zero null outpoint used by `OutPoint::default()` (`vout` is
`u32::MAX`). -/
def nullOutPoint : OutPoint := ⟨List.replicate 32 0, 4294967295⟩

/-- Default input, as produced by `TxIn::default()`: null previous output,
empty script_sig, `Sequence::MAX`, empty witness. -/
def defaultTxIn : TxIn := ⟨nullOutPoint, [], 4294967295, []⟩

/-- Transaction skeleton. -/
structure Transaction where
  version : Int
  lock_time : Nat
  input : List TxIn
  output : List TxOut
  deriving DecidableEq

/-- Consensus encoding of an output: 8-byte LE value, then the
length-prefixed script. -/
def TxOut.consensusEncode (o : TxOut) : List Nat :=
  le64 o.value ++ encodeScript o.script_pubkey

/-- Legacy (pre-segwit) consensus encoding of an input. -/
def TxIn.consensusEncode (i : TxIn) : List Nat :=
  i.previous_output.txid ++ le32 i.previous_output.vout ++ encodeScript i.script_sig ++
    le32 i.sequence

/-- Legacy serialization of a transaction (no witness data), the preimage of
`Transaction::txid`. -/
def legacySerialize (tx : Transaction) : List Nat :=
  encVersion tx.version ++ varint tx.input.length ++
    (tx.input.map TxIn.consensusEncode).flatten ++ varint tx.output.length ++
    (tx.output.map TxOut.consensusEncode).flatten ++ le32 tx.lock_time

/-- Transaction id (`Transaction::txid`): double SHA-256 of the legacy
serialization. -/
def Transaction.txid (tx : Transaction) : List Nat := sha256 (sha256 (legacySerialize tx))

/- ## The BIP-119 hash: `util` module of `ctv.rs` -/

namespace util

/-- Model of `util::scriptsigs`: `None` when every input's `script_sig` is
empty, otherwise the SHA-256 of the concatenated consensus-encoded
script_sigs. -/
def scriptsigs (tx : Transaction) : Option (List Nat) :=
  if tx.input.all (fun txin => txin.script_sig.isEmpty) then
    none
  else
    some (sha256 (tx.input.foldl (fun cursor txin => cursor ++ encodeScript txin.script_sig) []))

/-- Model of `util::sequences`: SHA-256 of the concatenated 4-byte LE
sequence numbers. -/
def sequences (tx : Transaction) : List Nat :=
  sha256 (tx.input.foldl (fun cursor txin => cursor ++ le32 txin.sequence) [])

/-- Model of `util::outputs`: SHA-256 of the concatenated consensus-encoded
outputs. -/
def outputs (tx : Transaction) : List Nat :=
  sha256 (tx.output.foldl (fun cursor txout => cursor ++ TxOut.consensusEncode txout) [])

/-- Model of `util::ctv`: the buffer is built by sequential writes into a
cursor, mirroring the source statement by statement, then hashed. -/
def ctv (tx : Transaction) (input : Nat) : List Nat :=
  let buffer : List Nat := []
  let buffer := buffer ++ encVersion tx.version
  let buffer := buffer ++ le32 tx.lock_time
  let buffer :=
    match scriptsigs tx with
    | some s => buffer ++ s
    | none => buffer
  let buffer := buffer ++ le32 tx.input.length
  let buffer := buffer ++ sequences tx
  let buffer := buffer ++ le32 tx.output.length
  let buffer := buffer ++ outputs tx
  let buffer := buffer ++ le32 input
  sha256 buffer

end util

/-- Specification-side preimage of the commitment hash, following the words
of the spec (section 4.1): version, locktime, the optional scriptSig segment,
input count, hash of sequences, output count, hash of outputs, input index,
in this exact order with no padding. -/
def ctvSpecBytes (tx : Transaction) (input_index : Nat) : List Nat :=
  encVersion tx.version ++ le32 tx.lock_time ++
    (if tx.input.all (fun txin => txin.script_sig.isEmpty) then []
     else sha256 ((tx.input.map (fun txin => encodeScript txin.script_sig)).flatten)) ++
    le32 tx.input.length ++
    sha256 ((tx.input.map (fun txin => le32 txin.sequence)).flatten) ++
    le32 tx.output.length ++
    sha256 ((tx.output.map TxOut.consensusEncode).flatten) ++
    le32 input_index

/- ## Script opcodes and push encodings -/

/-- Opcode OP_RETURN. -/
def OP_RETURN : Nat := 106

/-- Opcode OP_IF. -/
def OP_IF : Nat := 99

/-- Opcode OP_ELSE. -/
def OP_ELSE : Nat := 103

/-- Opcode OP_ENDIF. -/
def OP_ENDIF : Nat := 104

/-- Opcode OP_DROP. -/
def OP_DROP : Nat := 117

/-- Opcode OP_CSV (OP_CHECKSEQUENCEVERIFY). -/
def OP_CSV : Nat := 178

/-- Opcode OP_NOP4, the CheckTemplateVerify opcode of BIP-119. -/
def OP_NOP4 : Nat := 179

/-- Script data push, as emitted by `push_slice`: a direct length byte below
76, otherwise OP_PUSHDATA1/2/4 with the length in 1, 2 or 4 bytes. -/
def pushDataEnc (data : List Nat) : List Nat :=
  if data.length < 76 then data.length :: data
  else if data.length < 256 then 76 :: data.length :: data
  else if data.length < 65536 then 77 :: (le16 data.length ++ data)
  else 78 :: (le32 data.length ++ data)

/-- The `PushBytes` length limit of rust-bitcoin: a push must fit a `u32`. -/
def pushLimit : Nat := 4294967295

/-- UTF-8 bytes of a Rust `String` (`str::as_bytes`), encoded per character;
this is exactly the byte string of `String.toUTF8`. -/
def strBytes (s : String) : List Nat :=
  (s.data.flatMap String.utf8EncodeChar).map (fun b => b.toNat)

/- ## Networks and addresses (rust-bitcoin) -/

/-- Bitcoin network selector. -/
inductive Network where
  | bitcoin : Network
  | testnet : Network
  | signet : Network
  | regtest : Network
  deriving DecidableEq

/-- Model of `Address<NetworkUnchecked>`: the script_pubkey the address
stands for, the network it was parsed for, and whether it is a legacy
(base58) address.  The bech32/base58 text form itself is kept abstract. -/
structure AddressU where
  spk : List Nat
  net : Network
  legacy : Bool
  deriving DecidableEq

/-- Model of rust-bitcoin `Address::is_valid_for_network`: exact match, or a
testnet-family match (testnet/signet/regtest prefixes overlap for legacy
addresses, testnet/signet for bech32). -/
def AddressU.is_valid_for_network (a : AddressU) (network : Network) : Bool :=
  if a.net = network then true
  else if a.net = .bitcoin ∨ network = .bitcoin then false
  else if (a.net = .regtest ∨ network = .regtest) ∧ a.legacy = false then false
  else true

/-- Model of `Address::require_network`: succeed with the checked address, or
fail with a hard error. -/
def AddressU.require_network (a : AddressU) (network : Network) : RResult AddressU :=
  if a.is_valid_for_network network then .ok a else .error (.err "address is not valid for network")

/-- Model of `Address::p2wsh`: the segwit v0 script-hash address for a
witness script; its script_pubkey is OP_0 followed by a 32-byte push of the
script's SHA-256. -/
def AddressU.p2wsh (script : List Nat) (network : Network) : AddressU :=
  ⟨[0, 32] ++ sha256 script, network, false⟩

/- ## The template model: `Ctv` and `Output` -/

mutual
/-- Model of the `Output` enum of `ctv.rs`. -/
inductive Output where
  | Address (address : AddressU) (amount : Nat) : Output
  | Data (data : String) : Output
  | Tree (tree : Ctv) (amount : Nat) : Output
/-- Model of the `Ctv` template struct of `ctv.rs`. -/
inductive Ctv where
  | mk (network : Network) (version : Int) (locktime : Nat) (sequences : List Nat)
      (outputs : List Output) : Ctv
end

/-- Network field of a template. -/
def Ctv.network : Ctv → Network
  | .mk network _ _ _ _ => network

/-- Version field of a template. -/
def Ctv.version : Ctv → Int
  | .mk _ version _ _ _ => version

/-- Locktime field of a template. -/
def Ctv.locktime : Ctv → Nat
  | .mk _ _ locktime _ _ => locktime

/-- Sequences field of a template. -/
def Ctv.sequences : Ctv → List Nat
  | .mk _ _ _ sequences _ => sequences

/-- Outputs field of a template. -/
def Ctv.outputs : Ctv → List Output
  | .mk _ _ _ _ outputs => outputs

namespace segwit

/-- Model of `segwit::locking_script`: a push of the 32-byte template hash
followed by OP_NOP4.  The source `unwrap`s a 32-byte conversion, so a hash of
any other length panics (`none`). -/
def locking_script (tmplhash : List Nat) : Option (List Nat) :=
  if tmplhash.length = 32 then some (pushDataEnc tmplhash ++ [OP_NOP4]) else none

end segwit

mutual
/-- Model of `Output::as_txout`: materialize one output for the enclosing
template's network. -/
def Output.as_txout : Output → Network → RResult TxOut
  | .Address address amount, network =>
    match address.require_network network with
    | .ok checked => .ok ⟨amount, checked.spk⟩
    | .error e => .error e
  | .Data data, _ =>
    if (strBytes data).length ≤ pushLimit then
      .ok ⟨0, OP_RETURN :: pushDataEnc (strBytes data)⟩
    else
      .error (.err "push bytes limit exceeded")
  | .Tree tree amount, network =>
    match Ctv.ctv tree with
    | .ok tmplhash =>
      match segwit.locking_script tmplhash with
      | some locking => .ok ⟨amount, (AddressU.p2wsh locking network).spk⟩
      | none => .error (.panicked "locking_script expects a 32-byte hash")
    | .error e => .error e
termination_by structural o _ => o

/-- Materialize a list of outputs, stopping at the first error (`collect`
over `Result`). -/
def outputListTxouts : List Output → Network → RResult (List TxOut)
  | [], _ => .ok []
  | o :: rest, network =>
    match o.as_txout network, outputListTxouts rest network with
    | .ok t, .ok ts => .ok (t :: ts)
    | .error e, _ => .error e
    | _, .error e => .error e
termination_by structural l _ => l

/-- Model of `Ctv::ctv`: hash the materialized transaction at input index 0.
The body of `Ctv::as_tx` is inlined here to keep the mutual recursion
structural; `Ctv.ctv_eq_as_tx` below recovers the source's phrasing. -/
def Ctv.ctv : Ctv → RResult (List Nat)
  | .mk _network version locktime seqs outs =>
    match outputListTxouts outs _network with
    | .ok output =>
      .ok (util.ctv ⟨version, locktime, seqs.map (fun sq => ⟨nullOutPoint, [], sq, []⟩), output⟩ 0)
    | .error e => .error e
termination_by structural c => c
end

/-- Model of `Ctv::as_tx`: inputs carry only the sequence number (the other
`TxIn` fields are `TxIn::default()`'s), outputs are materialized per
variant. -/
def Ctv.as_tx (c : Ctv) : RResult Transaction :=
  match outputListTxouts c.outputs c.network with
  | .ok output =>
    .ok ⟨c.version, c.locktime, c.sequences.map (fun sq => ⟨nullOutPoint, [], sq, []⟩), output⟩
  | .error e => .error e

/-- Model of `Ctv::txouts`. -/
def Ctv.txouts (c : Ctv) : RResult (List TxOut) :=
  outputListTxouts c.outputs c.network

/-- Model of `Ctv::witness`: a single witness item holding the bare
commitment-check script for the template itself. -/
def Ctv.witness (c : Ctv) : RResult (List (List Nat)) :=
  match c.ctv with
  | .ok hsh =>
    match segwit.locking_script hsh with
    | some s => .ok [s]
    | none => .error (.panicked "locking_script expects a 32-byte hash")
  | .error e => .error e

/-- Model of `Ctv::spending_tx`: build the transaction spending the funding
outpoint, then recurse into a `Tree` at output index 0, if any. -/
def Ctv.spending_tx : Ctv → List Nat → Nat → RResult (List Transaction)
  | .mk _network version locktime seqs outs, tid, vout =>
    match seqs with
    | [] => .error (.err "Missing sequence")
    | sq :: _ =>
      match Ctv.witness (.mk _network version locktime seqs outs) with
      | .error e => .error e
      | .ok wit =>
        match outputListTxouts outs _network with
        | .error e => .error e
        | .ok output =>
          let tx : Transaction := ⟨version, locktime, [⟨⟨tid, vout⟩, [], sq, wit⟩], output⟩
          match outs with
          | .Tree tree _ :: _ =>
            match Ctv.spending_tx tree tx.txid 0 with
            | .ok rest => .ok (tx :: rest)
            | .error e => .error e
          | _ => .ok [tx]
termination_by structural c _ _ => c

/-- Depth of the first-output `Tree` nesting of a template. -/
def Ctv.depth : Ctv → Nat
  | .mk _ _ _ _ (.Tree tree _ :: _) => 1 + Ctv.depth tree
  | .mk _ _ _ _ _ => 1
termination_by structural c => c

/-- The template reached by always following a `Tree` at output index 0. -/
def Ctv.deepest : Ctv → Ctv
  | .mk _ _ _ _ (.Tree tree _ :: _) => Ctv.deepest tree
  | c => c
termination_by structural c => c

/-- Whether some template along the first-output path has no sequences. -/
def Ctv.pathMissingSeq : Ctv → Bool
  | .mk _ _ _ seqs (.Tree tree _ :: _) => seqs.isEmpty || Ctv.pathMissingSeq tree
  | .mk _ _ _ seqs _ => seqs.isEmpty
termination_by structural c => c

/- ## The vault locking script: `segwit` module -/

namespace segwit

/-- Model of rust-bitcoin `Amount` subtraction, which panics on underflow. -/
def amountSub (a b : Nat) : RResult Nat :=
  if b ≤ a then .ok (a - b) else .error (.panicked "Amount subtraction underflow")

/-- Minimal little-endian byte string of a positive integer; the fuel
argument keeps the recursion structural. -/
def natLEBytesAux : Nat → Nat → List Nat
  | 0, _ => []
  | _, 0 => []
  | fuel + 1, n => n % 256 :: natLEBytesAux fuel (n / 256)

/-- Minimal little-endian byte string of a natural number. -/
def natLEBytes (n : Nat) : List Nat := natLEBytesAux n n

/-- Model of `Builder::push_int` for a non-negative argument: OP_0 for zero,
the small-integer opcodes for 1..16, otherwise a push of the minimal
little-endian signed encoding (a zero byte is appended when the top bit of
the last byte is set). -/
def pushInt (n : Nat) : List Nat :=
  if n = 0 then [0]
  else if n ≤ 16 then [80 + n]
  else
    let bytes := natLEBytes n
    pushDataEnc (if 128 ≤ bytes.getLastD 0 then bytes ++ [0] else bytes)

/-- Model of `segwit::vault_locking_script`: build the cold and hot
single-output templates paying `amount - 600`, hash them, and assemble the
two-branch script.  `Sequence::from_height delay` pushes the raw `delay`
value.  The `Amount` subtraction panics when `amount < 600`; the
`PushBytesBuf::try_from` conversions fail when a hash exceeds the push
limit. -/
def vault_locking_script (delay : Nat) (cold hot : AddressU) (network : Network)
    (amount : Nat) : RResult (List Nat) :=
  match amountSub amount 600 with
  | .error e => .error e
  | .ok amt =>
    let cold_ctv : Ctv := .mk network 1 0 [0] [.Address cold amt]
    match cold_ctv.ctv with
    | .error e => .error e
    | .ok cold_hash =>
      if cold_hash.length ≤ pushLimit then
        let hot_ctv : Ctv := .mk network 1 0 [0] [.Address hot amt]
        match hot_ctv.ctv with
        | .error e => .error e
        | .ok hot_hash =>
          if hot_hash.length ≤ pushLimit then
            .ok ([OP_IF] ++ pushInt delay ++ [OP_CSV, OP_DROP] ++ pushDataEnc hot_hash ++
              [OP_NOP4, OP_ELSE] ++ pushDataEnc cold_hash ++ [OP_NOP4, OP_ENDIF])
          else .error (.err "push bytes limit exceeded")
      else .error (.err "push bytes limit exceeded")

end segwit

/- ## Interchange form (serde_json, `#[serde(untagged)]` for `Output`) -/

/-- Model of a JSON value.  An `Address<NetworkUnchecked>` serializes to its
canonical text form and parses back to the same address (rust-bitcoin's
`Display`/`FromStr` round-trip); that atom is modelled by `jaddr` carrying
the address value itself. -/
inductive Json where
  | jstr (s : String) : Json
  | jnum (n : Int) : Json
  | jaddr (a : AddressU) : Json
  | jarr (xs : List Json) : Json
  | jobj (fields : List (String × Json)) : Json

/-- Display form of a network, used by its serde implementation. -/
def Network.toText : Network → String
  | .bitcoin => "bitcoin"
  | .testnet => "testnet"
  | .signet => "signet"
  | .regtest => "regtest"

/-- Parse a network's display form. -/
def Network.fromText (s : String) : Option Network :=
  if s = "bitcoin" then some .bitcoin
  else if s = "testnet" then some .testnet
  else if s = "signet" then some .signet
  else if s = "regtest" then some .regtest
  else none

mutual
/-- Serde serialization of an `Output` (untagged: just the variant's
fields). -/
def Output.toJson : Output → Json
  | .Address address amount => .jobj [("address", .jaddr address), ("amount", .jnum amount)]
  | .Data data => .jobj [("data", .jstr data)]
  | .Tree tree amount => .jobj [("tree", Ctv.toJson tree), ("amount", .jnum amount)]
termination_by structural o => o

/-- Serialize a list of outputs. -/
def outputListToJson : List Output → List Json
  | [] => []
  | o :: rest => Output.toJson o :: outputListToJson rest
termination_by structural l => l

/-- Serde serialization of a `Ctv` template (fields in declaration
order). -/
def Ctv.toJson : Ctv → Json
  | .mk network version locktime seqs outs =>
    .jobj [("network", .jstr network.toText), ("version", .jnum version),
           ("locktime", .jnum locktime),
           ("sequences", .jarr (seqs.map (fun (sq : Nat) => Json.jnum (sq : Int)))),
           ("outputs", .jarr (outputListToJson outs))]
termination_by structural c => c
end

/-- Look up a field of a JSON object (first occurrence). -/
def getField : List (String × Json) → String → Option Json
  | [], _ => none
  | (k, v) :: rest, key => if k = key then some v else getField rest key

/-- Deserialize a `u64`, with serde_json's range check (negative numbers and
values past `u64::MAX` are rejected). -/
def deU64 : Json → Option Nat
  | .jnum (.ofNat n) => if n < 18446744073709551616 then some n else none
  | _ => none

/-- Deserialize a `u32`, with serde_json's range check. -/
def deU32 : Json → Option Nat
  | .jnum (.ofNat n) => if n < 4294967296 then some n else none
  | _ => none

/-- Deserialize an `i32`, with serde_json's range check (`negSucc n` is
`-(n + 1)`, in range exactly when `n < 2^31`). -/
def deI32 : Json → Option Int
  | .jnum (.ofNat n) => if n < 2147483648 then some (.ofNat n) else none
  | .jnum (.negSucc n) => if n < 2147483648 then some (.negSucc n) else none
  | _ => none

/-- Deserialize a string. -/
def deStr : Json → Option String
  | .jstr s => some s
  | _ => none

/-- Deserialize an address from its text atom. -/
def deAddr : Json → Option AddressU
  | .jaddr a => some a
  | _ => none

/-- Deserialize a list of `u32` sequence numbers. -/
def deU32List : List Json → Option (List Nat)
  | [] => some []
  | j :: rest =>
    match deU32 j, deU32List rest with
    | some n, some ns => some (n :: ns)
    | _, _ => none

/-- Untagged `Address` variant: requires the `address` and `amount` fields,
ignores unknown fields (serde untagged struct-variant behaviour). -/
def deAddressVariant (fields : List (String × Json)) : Option Output :=
  match getField fields "address", getField fields "amount" with
  | some ja, some jn =>
    match deAddr ja, deU64 jn with
    | some a, some n => some (.Address a n)
    | _, _ => none
  | _, _ => none

/-- Untagged `Data` variant: requires the `data` field. -/
def deDataVariant (fields : List (String × Json)) : Option Output :=
  match getField fields "data" with
  | some js =>
    match deStr js with
    | some s => some (.Data s)
    | none => none
  | none => none

mutual
/-- Structural size of a JSON value, used as deserializer fuel. -/
def jsonSize : Json → Nat
  | .jstr _ => 1
  | .jnum _ => 1
  | .jaddr _ => 1
  | .jarr xs => 1 + jsonSizeList xs
  | .jobj fields => 1 + jsonSizeFields fields
termination_by structural j => j

/-- Structural size of a list of JSON values. -/
def jsonSizeList : List Json → Nat
  | [] => 0
  | j :: rest => 1 + jsonSize j + jsonSizeList rest
termination_by structural l => l

/-- Structural size of a JSON object's fields. -/
def jsonSizeFields : List (String × Json) → Nat
  | [] => 0
  | (_, v) :: rest => 1 + jsonSize v + jsonSizeFields rest
termination_by structural l => l
end

mutual
/-- Fuelled untagged deserializer for `Output`: try the variants in
declaration order (`Address`, `Data`, `Tree`) and keep the first that
succeeds, serde's untagged semantics.  Fuel `jsonSize j` always suffices. -/
def outputFromJsonAux : Nat → Json → Option Output
  | 0, _ => none
  | fuel + 1, .jobj fields =>
    match deAddressVariant fields with
    | some o => some o
    | none =>
      match deDataVariant fields with
      | some o => some o
      | none =>
        match getField fields "tree", getField fields "amount" with
        | some jt, some jn =>
          match ctvFromJsonAux fuel jt, deU64 jn with
          | some t, some n => some (.Tree t n)
          | _, _ => none
        | _, _ => none
  | _ + 1, _ => none

/-- Fuelled deserializer for a list of outputs. -/
def outputListFromJsonAux : Nat → List Json → Option (List Output)
  | 0, _ => none
  | _ + 1, [] => some []
  | fuel + 1, j :: rest =>
    match outputFromJsonAux fuel j, outputListFromJsonAux fuel rest with
    | some o, some os => some (o :: os)
    | _, _ => none

/-- Fuelled deserializer for a `Ctv` template: all five fields must be
present and well-typed. -/
def ctvFromJsonAux : Nat → Json → Option Ctv
  | 0, _ => none
  | fuel + 1, .jobj fields =>
    match getField fields "network", getField fields "version", getField fields "locktime",
          getField fields "sequences", getField fields "outputs" with
    | some jn, some jv, some jl, some (.jarr seqJs), some (.jarr outJs) =>
      match deStr jn with
      | some ns =>
        match Network.fromText ns, deI32 jv, deU32 jl, deU32List seqJs,
              outputListFromJsonAux fuel outJs with
        | some network, some version, some locktime, some seqs, some outs =>
          some (.mk network version locktime seqs outs)
        | _, _, _, _, _ => none
      | none => none
    | _, _, _, _, _ => none
  | _ + 1, _ => none
end

/-- Deserialize a `Ctv` template from JSON. -/
def Ctv.fromJson (j : Json) : Option Ctv :=
  ctvFromJsonAux (jsonSize j) j

mutual
/-- Representability of an `Output` in the Rust types: amounts fit `u64`. -/
def Output.wf : Output → Bool
  | .Address _ amount => decide (amount < 18446744073709551616)
  | .Data _ => true
  | .Tree tree amount => decide (amount < 18446744073709551616) && Ctv.wf tree
termination_by structural o => o

/-- Representability of a list of outputs. -/
def outputListWf : List Output → Bool
  | [] => true
  | o :: rest => Output.wf o && outputListWf rest
termination_by structural l => l

/-- Representability of a template in the Rust types: the version fits `i32`,
locktime and sequences fit `u32`, amounts fit `u64`. -/
def Ctv.wf : Ctv → Bool
  | .mk _ version locktime seqs outs =>
    decide (-2147483648 ≤ version) && decide (version < 2147483648) &&
      decide (locktime < 4294967296) && seqs.all (fun sq => decide (sq < 4294967296)) &&
      outputListWf outs
termination_by structural c => c
end

/-- Every transaction after the first spends output index 0 of its
predecessor through its sole input. -/
def chainLinked : List Transaction → Prop
  | t1 :: t2 :: rest =>
    (∃ txin, t2.input = [txin] ∧ txin.previous_output = ⟨t1.txid, 0⟩) ∧ chainLinked (t2 :: rest)
  | _ => True

/- ## Concrete instances used by witnesses and counterexamples -/

/-- A transaction whose single input has an empty scriptSig. -/
def txEmptySigs : Transaction := ⟨2, 0, [⟨nullOutPoint, [], 5, []⟩], [⟨100, [81]⟩]⟩

/-- A transaction whose single input has the scriptSig `OP_TRUE`. -/
def txWithSig : Transaction := ⟨2, 0, [⟨nullOutPoint, [81], 5, []⟩], [⟨100, [81]⟩]⟩

/-- A P2WPKH-shaped address parsed for regtest. -/
def regtestAddr : AddressU := ⟨[0, 20] ++ List.replicate 20 7, .regtest, false⟩

/-- A second P2WPKH-shaped address parsed for regtest. -/
def regtestAddr2 : AddressU := ⟨[0, 20] ++ List.replicate 20 9, .regtest, false⟩

/-- A template on the bitcoin network holding a testnet address: the address
does not validate against the template's network. -/
def badAddrTemplate : Ctv :=
  .mk .bitcoin 2 0 [0] [.Address ⟨[0, 20] ++ List.replicate 20 7, .testnet, false⟩ 500]

/-- A leaf template carrying only a data output. -/
def innerTemplate : Ctv := .mk .regtest 2 0 [0] [.Data "cdv"]

/-- A depth-two template whose first output nests `innerTemplate`. -/
def outerTemplate : Ctv := .mk .regtest 2 0 [0] [.Tree innerTemplate 900]

/-- Funding txid used by the witnesses. -/
def fundingTxid : List Nat := List.replicate 32 1

/-- The spending chain of `outerTemplate` from the funding outpoint. -/
def outerChain : List Transaction :=
  (Ctv.spending_tx outerTemplate fundingTxid 0).toOption.getD []

/-- The materialized transaction of `innerTemplate`. -/
def innerTx : Transaction := (Ctv.as_tx innerTemplate).toOption.getD ⟨0, 0, [], []⟩

/-- The materialized outputs of `outerTemplate`. -/
def outerTxouts : List TxOut := (Ctv.txouts outerTemplate).toOption.getD []

/-- A template exercising all three output variants, used by the round-trip
witness. -/
def mixedTemplate : Ctv :=
  .mk .signet 2 77 [3, 4] [.Tree innerTemplate 900, .Address regtestAddr 555, .Data "hi"]

/-- The vault locking script built at the boundary amount of 600 sats. -/
def vaultScript600 : List Nat :=
  (segwit.vault_locking_script 10 regtestAddr regtestAddr2 .regtest 600).toOption.getD []

/-- The vault locking script built at an amount of 1000 sats. -/
def vaultScript1000 : List Nat :=
  (segwit.vault_locking_script 10 regtestAddr regtestAddr2 .regtest 1000).toOption.getD []


/- ## Theorems -/

/-- SHA-256 digests are exactly 32 bytes long. -/
theorem SHA256.sha256_length (data : List Nat) : (sha256 data).length = 32 := by
  simp [sha256, SHA256.be4]

/-- Sanity check against the FIPS test vector for the empty message. -/
theorem sha256_empty_vector :
    sha256 [] =
      [0xe3, 0xb0, 0xc4, 0x42, 0x98, 0xfc, 0x1c, 0x14, 0x9a, 0xfb, 0xf4, 0xc8, 0x99, 0x6f, 0xb9,
       0x24, 0x27, 0xae, 0x41, 0xe4, 0x64, 0x9b, 0x93, 0x4c, 0xa4, 0x95, 0x99, 0x1b, 0x78, 0x52,
       0xb8, 0x55] := by
  decide

/-- Sanity check against the FIPS test vector for "abc". -/
theorem sha256_abc_vector :
    sha256 [0x61, 0x62, 0x63] =
      [0xba, 0x78, 0x16, 0xbf, 0x8f, 0x01, 0xcf, 0xea, 0x41, 0x41, 0x40, 0xde, 0x5d, 0xae, 0x22,
       0x23, 0xb0, 0x03, 0x61, 0xa3, 0x96, 0x17, 0x7a, 0x9c, 0xb4, 0x10, 0xff, 0x61, 0xf2, 0x00,
       0x15, 0xad] := by
  decide

/-- Folding cursor writes over a list is the concatenation of the per-element
encodings. -/
theorem foldl_append_flatten {α β : Type} (f : α → List β) (l : List α) (init : List β) :
    l.foldl (fun acc x => acc ++ f x) init = init ++ (l.map f).flatten := by
  induction l generalizing init with
  | nil => simp
  | cons x xs ih => simp [ih]

/-- C1: the commitment hash of a transaction skeleton and input index is the
SHA-256 of the concatenation, in this exact order, of: the 4-byte LE version,
the 4-byte LE locktime, an optional scriptSig-hash segment, the 4-byte LE
input count, the SHA-256 of all inputs' sequence numbers (4 bytes LE each, in
input order), the 4-byte LE output count, the SHA-256 of all outputs'
consensus-serialized encodings (in output order), and the 4-byte LE input
index — and nothing else, with no padding between segments. -/
theorem ctv_hash_matches_spec_concatenation (tx : Transaction) (input_index : Nat) :
    util.ctv tx input_index = sha256 (ctvSpecBytes tx input_index) := by
  by_cases h : tx.input.all (fun txin => txin.script_sig.isEmpty) <;>
    simp [util.ctv, util.scriptsigs, util.sequences, util.outputs, ctvSpecBytes, h,
      foldl_append_flatten]

/-- C2: when every input's scriptSig is empty the hasher includes no
scriptSig segment at all (`scriptsigs` yields nothing and the preimage is the
segment-free concatenation, not a zero-filled one); when at least one
scriptSig is non-empty the hasher includes, between the locktime and the
input count, the SHA-256 of the concatenation of all inputs' length-prefixed
serialized scriptSigs. -/
theorem scriptsig_segment_conditional (tx : Transaction) (idx : Nat) :
    ((∀ txin ∈ tx.input, txin.script_sig = []) →
      util.scriptsigs tx = none ∧
        util.ctv tx idx =
          sha256 (encVersion tx.version ++ le32 tx.lock_time ++ le32 tx.input.length ++
            util.sequences tx ++ le32 tx.output.length ++ util.outputs tx ++ le32 idx)) ∧
    ((∃ txin ∈ tx.input, txin.script_sig ≠ []) →
      util.scriptsigs tx =
          some (sha256 ((tx.input.map (fun txin => encodeScript txin.script_sig)).flatten)) ∧
        util.ctv tx idx =
          sha256 (encVersion tx.version ++ le32 tx.lock_time ++
            sha256 ((tx.input.map (fun txin => encodeScript txin.script_sig)).flatten) ++
            le32 tx.input.length ++ util.sequences tx ++ le32 tx.output.length ++
            util.outputs tx ++ le32 idx)) := by
  constructor
  · intro h
    have hall : tx.input.all (fun txin => txin.script_sig.isEmpty) := by
      simp [List.all_eq_true]
      intro txin hmem
      simp [h txin hmem]
    constructor
    · simp [util.scriptsigs, hall]
    · simp [util.ctv, util.scriptsigs, hall]
  · intro h
    have hall : ¬ tx.input.all (fun txin => txin.script_sig.isEmpty) := by
      obtain ⟨txin, hmem, hne⟩ := h
      simp [List.all_eq_true]
      exact ⟨txin, hmem, by simpa [List.isEmpty_iff] using hne⟩
    constructor
    · simp [util.scriptsigs, hall, foldl_append_flatten]
    · simp [util.ctv, util.scriptsigs, hall, foldl_append_flatten]

/-- Witness for `scriptsig_segment_conditional` at two concrete
transactions, one with all-empty scriptSigs and one with a non-empty one. -/
theorem scriptsig_segment_conditional_witness :
    (util.scriptsigs txEmptySigs = none ∧
      util.ctv txEmptySigs 0 =
        sha256 (encVersion txEmptySigs.version ++ le32 txEmptySigs.lock_time ++
          le32 txEmptySigs.input.length ++ util.sequences txEmptySigs ++
          le32 txEmptySigs.output.length ++ util.outputs txEmptySigs ++ le32 0)) ∧
    (util.scriptsigs txWithSig =
        some (sha256 ((txWithSig.input.map (fun txin => encodeScript txin.script_sig)).flatten)) ∧
      util.ctv txWithSig 0 =
        sha256 (encVersion txWithSig.version ++ le32 txWithSig.lock_time ++
          sha256 ((txWithSig.input.map (fun txin => encodeScript txin.script_sig)).flatten) ++
          le32 txWithSig.input.length ++ util.sequences txWithSig ++
          le32 txWithSig.output.length ++ util.outputs txWithSig ++ le32 0)) :=
  ⟨(scriptsig_segment_conditional txEmptySigs 0).1 (by decide),
   (scriptsig_segment_conditional txWithSig 0).2 (by decide)⟩

/-- The commitment hash preimage of `util.ctv` is a SHA-256 digest, so it is
always 32 bytes. -/
theorem ctv_hash_length (tx : Transaction) (i : Nat) : (util.ctv tx i).length = 32 := by
  simp [util.ctv, SHA256.sha256_length]

/-- The inlined `Ctv.ctv` agrees with the source's phrasing through
`Ctv.as_tx`. -/
theorem ctv_eq_as_tx (c : Ctv) :
    Ctv.ctv c =
      match Ctv.as_tx c with
      | .ok tx => .ok (util.ctv tx 0)
      | .error e => .error e := by
  cases c with
  | mk network version locktime seqs outs =>
    simp only [Ctv.ctv, Ctv.as_tx, Ctv.outputs, Ctv.network, Ctv.version, Ctv.locktime,
      Ctv.sequences]
    cases outputListTxouts outs network <;> simp

/-- A successful template hash is 32 bytes long. -/
theorem template_hash_length {c : Ctv} {hsh : List Nat} (h : Ctv.ctv c = .ok hsh) :
    hsh.length = 32 := by
  cases c with
  | mk network version locktime seqs outs =>
    simp only [Ctv.ctv] at h
    cases ho : outputListTxouts outs network <;> rw [ho] at h <;> simp at h
    subst h
    exact ctv_hash_length _ _

/-- When the template hash succeeds, the witness is the singleton bare
commitment-check script. -/
theorem witness_of_ctv_ok {c : Ctv} {hsh : List Nat} (h : Ctv.ctv c = .ok hsh) :
    Ctv.witness c = .ok [pushDataEnc hsh ++ [OP_NOP4]] := by
  have hlen : hsh.length = 32 := template_hash_length h
  simp [Ctv.witness, h, segwit.locking_script, hlen]

/-- Inversion for materializing a cons of outputs. -/
theorem outputListTxouts_cons {o : Output} {rest : List Output} {network : Network}
    {ts : List TxOut} (h : outputListTxouts (o :: rest) network = .ok ts) :
    ∃ t ts2, o.as_txout network = .ok t ∧ outputListTxouts rest network = .ok ts2 ∧
      ts = t :: ts2 := by
  simp only [outputListTxouts] at h
  cases h1 : o.as_txout network <;> cases h2 : outputListTxouts rest network <;>
    rw [h1, h2] at h <;> simp at h
  exact ⟨_, _, rfl, rfl, h.symm⟩

/-- A successfully materialized `Tree` output requires a successful nested
template hash. -/
theorem tree_txout_ctv_ok {tree : Ctv} {amt : Nat} {network : Network} {t : TxOut}
    (h : Output.as_txout (.Tree tree amt) network = .ok t) :
    ∃ hsh, Ctv.ctv tree = .ok hsh := by
  simp only [Output.as_txout] at h
  cases hc : Ctv.ctv tree <;> rw [hc] at h
  · simp at h
  · exact ⟨_, rfl⟩

/-- The template hash succeeds exactly when the outputs materialize. -/
theorem ctv_ok_iff_txouts_ok (c : Ctv) :
    (∃ hsh, Ctv.ctv c = .ok hsh) ↔ (∃ os, Ctv.txouts c = .ok os) := by
  cases c with
  | mk network version locktime seqs outs =>
    simp only [Ctv.ctv, Ctv.txouts, Ctv.outputs, Ctv.network]
    cases outputListTxouts outs network <;> simp

/-- C3: a successful spending chain has exactly `depth` transactions, the
first spends the funding outpoint, every subsequent transaction spends
output index 0 of its predecessor (only the first output's nested tree is
followed), and the last transaction's outputs are the materialized outputs
of the deepest template. -/
theorem spending_chain_structure :
    ∀ (c : Ctv) (tid : List Nat) (vout : Nat) (txs : List Transaction),
      Ctv.spending_tx c tid vout = .ok txs →
      txs.length = c.depth ∧
      (∃ tx0 rest, txs = tx0 :: rest ∧
        ∃ txin, tx0.input = [txin] ∧ txin.previous_output = ⟨tid, vout⟩) ∧
      chainLinked txs ∧
      ∃ lastTx os, txs.getLast? = some lastTx ∧ Ctv.txouts c.deepest = .ok os ∧
        lastTx.output = os := by
  intro c tid vout
  induction c, tid, vout using Ctv.spending_tx.induct
  all_goals intro txs h
  all_goals simp only [Ctv.spending_tx] at h
  case case1 =>
    simp at h
  case case2 e hw =>
    rw [hw] at h; simp at h
  case case3 wit herr htxe hwit =>
    rw [hwit, htxe] at h; simp at h
  case case4 wit output txl tree amount tail rest hsp htxo hwit ih =>
    rw [hwit, htxo] at h
    simp only [] at h
    split at h
    case _ rest2 heq =>
      simp only [Except.ok.injEq] at h
      subst h
      obtain ⟨hlen, ⟨tx1, rest1, hrest, txin1, hinp1, hprev1⟩, hchain, lastTx, os, hlast, hdeep,
        hout⟩ := ih rest2 heq
      refine ⟨?_, ?_, ?_, ?_⟩
      · simp only [List.length_cons, hlen, Ctv.depth]
        omega
      · exact ⟨_, rest2, rfl, ⟨_, rfl, rfl⟩⟩
      · subst hrest
        exact ⟨⟨txin1, hinp1, hprev1⟩, hchain⟩
      · refine ⟨lastTx, os, ?_, ?_, hout⟩
        · subst hrest
          simpa using hlast
        · simpa [Ctv.deepest] using hdeep
    case _ e heq =>
      simp at h
  case case5 wit output txl tree amount tail e hsp htxo hwit ih =>
    rw [hwit, htxo] at h
    simp only [] at h
    split at h
    case _ rest2 heq =>
      simp only [Except.ok.injEq] at h
      subst h
      obtain ⟨hlen, ⟨tx1, rest1, hrest, txin1, hinp1, hprev1⟩, hchain, lastTx, os, hlast, hdeep,
        hout⟩ := ih rest2 heq
      refine ⟨?_, ?_, ?_, ?_⟩
      · simp only [List.length_cons, hlen, Ctv.depth]
        omega
      · exact ⟨_, rest2, rfl, ⟨_, rfl, rfl⟩⟩
      · subst hrest
        exact ⟨⟨txin1, hinp1, hprev1⟩, hchain⟩
      · refine ⟨lastTx, os, ?_, ?_, hout⟩
        · subst hrest
          simpa using hlast
        · simpa [Ctv.deepest] using hdeep
    case _ e2 heq =>
      simp at h
  case case6 wit output htxo hnotree hwit =>
    rw [hwit, htxo] at h
    simp only [Except.ok.injEq] at h
    subst h
    refine ⟨?_, ?_, ?_, ?_⟩
    · rename_i outs _ _ _ _
      match outs, hnotree with
      | [], _ => simp [Ctv.depth]
      | .Address a amt :: tail, _ => simp [Ctv.depth]
      | .Data d :: tail, _ => simp [Ctv.depth]
      | .Tree t amt :: tail, hno => exact absurd rfl (fun hh => hno t amt tail hh)
    · exact ⟨_, [], rfl, ⟨_, rfl, rfl⟩⟩
    · simp [chainLinked]
    · rename_i outs _ _ _ _
      refine ⟨_, output, rfl, ?_, rfl⟩
      match outs, hnotree, htxo with
      | [], _, htxo => simpa [Ctv.deepest, Ctv.txouts, Ctv.outputs, Ctv.network] using htxo
      | .Address a amt :: tail, _, htxo =>
        simpa [Ctv.deepest, Ctv.txouts, Ctv.outputs, Ctv.network] using htxo
      | .Data d :: tail, _, htxo =>
        simpa [Ctv.deepest, Ctv.txouts, Ctv.outputs, Ctv.network] using htxo
      | .Tree t amt :: tail, hno, _ => exact absurd rfl (fun hh => hno t amt tail hh)


/-- Witness for `spending_chain_structure` on the concrete depth-two
template: the chain builds successfully and the theorem applies. -/
theorem spending_chain_structure_witness :
    Ctv.spending_tx outerTemplate fundingTxid 0 = .ok outerChain ∧
    outerChain.length = outerTemplate.depth ∧ chainLinked outerChain :=
  ⟨by rfl,
   (spending_chain_structure outerTemplate fundingTxid 0 outerChain (by rfl)).1,
   (spending_chain_structure outerTemplate fundingTxid 0 outerChain (by rfl)).2.2.1⟩

/-- A template whose first-output path never lacks sequences. -/
theorem pathMissingSeq_nil_seqs (network : Network) (version : Int) (locktime : Nat)
    (outs : List Output) :
    Ctv.pathMissingSeq (.mk network version locktime [] outs) = true := by
  match outs with
  | [] => simp [Ctv.pathMissingSeq]
  | .Address a b :: tail => simp [Ctv.pathMissingSeq]
  | .Data d :: tail => simp [Ctv.pathMissingSeq]
  | .Tree t a :: tail => simp [Ctv.pathMissingSeq]

/-- Materializing a `Tree`-headed output list forces the nested template's
outputs to materialize. -/
theorem txouts_tree_head {network : Network} {tree : Ctv} {amt : Nat} {tail : List Output}
    {os : List TxOut} (h : outputListTxouts (Output.Tree tree amt :: tail) network = .ok os) :
    ∃ os2, Ctv.txouts tree = .ok os2 := by
  obtain ⟨t, ts2, h1, h2, rfl⟩ := outputListTxouts_cons h
  obtain ⟨hsh, hc⟩ := tree_txout_ctv_ok h1
  exact (ctv_ok_iff_txouts_ok tree).1 ⟨hsh, hc⟩

/-- C6 (amended): assuming the template's outputs materialize, the spending
chain fails exactly when some template along the followed first-output path
has an empty sequences list; on success the built transaction's sole input
carries the first sequence and its witness is the singleton commitment-check
script (a push of the template's 32-byte hash followed by the CTV opcode). -/
theorem spending_tx_error_characterization :
    ∀ (c : Ctv) (tid : List Nat) (vout : Nat),
      (∃ os, Ctv.txouts c = .ok os) →
      ((∃ e, Ctv.spending_tx c tid vout = .error e) ↔ c.pathMissingSeq = true) ∧
      (∀ txs, Ctv.spending_tx c tid vout = .ok txs →
        ∃ sq seqTail hsh tx0 rest txin,
          c.sequences = sq :: seqTail ∧
          txs = tx0 :: rest ∧ tx0.input = [txin] ∧ txin.sequence = sq ∧
          Ctv.ctv c = .ok hsh ∧ txin.witness = [pushDataEnc hsh ++ [OP_NOP4]]) := by
  intro c tid vout
  induction c, tid, vout using Ctv.spending_tx.induct
  all_goals intro hos
  case case1 =>
    constructor
    · simp only [Ctv.spending_tx]
      constructor
      · intro _
        exact pathMissingSeq_nil_seqs _ _ _ _
      · intro _
        exact ⟨_, rfl⟩
    · intro txs h
      simp only [Ctv.spending_tx] at h
      simp at h
  case case2 e hw =>
    obtain ⟨os, hos⟩ := hos
    obtain ⟨hsh, hc⟩ := (ctv_ok_iff_txouts_ok _).2 ⟨os, hos⟩
    rw [witness_of_ctv_ok hc] at hw
    simp at hw
  case case3 wit herr htxe hwit =>
    obtain ⟨os, hos⟩ := hos
    rw [Ctv.txouts] at hos
    simp only [Ctv.outputs, Ctv.network] at hos
    rw [htxe] at hos
    simp at hos
  case case4 wit output txl tree amount tail rest hsp htxo hwit ih =>
    have htreeok : ∃ os2, Ctv.txouts tree = .ok os2 := txouts_tree_head htxo
    obtain ⟨hiff, hok⟩ := ih htreeok
    obtain ⟨os, hosv⟩ := hos
    obtain ⟨hsh, hc⟩ := (ctv_ok_iff_txouts_ok _).2 ⟨os, hosv⟩
    have hwit2 := witness_of_ctv_ok hc
    rw [hwit] at hwit2
    simp only [Except.ok.injEq] at hwit2
    constructor
    · simp only [Ctv.spending_tx]
      rw [hwit, htxo]
      simp only []
      rw [hsp]
      simp only []
      constructor
      · intro ⟨e, he⟩
        simp at he
      · intro hpath
        simp only [Ctv.pathMissingSeq, List.isEmpty_cons, Bool.false_or] at hpath
        exact absurd (hiff.2 hpath) (by simp [hsp])
    · intro txs h
      simp only [Ctv.spending_tx] at h
      rw [hwit, htxo] at h
      simp only [] at h
      rw [hsp] at h
      simp only [Except.ok.injEq] at h
      subst h
      exact ⟨_, _, hsh, _, rest, _, rfl, rfl, rfl, rfl, hc, by rw [hwit2]⟩
  case case5 wit output txl tree amount tail e hsp htxo hwit ih =>
    have htreeok : ∃ os2, Ctv.txouts tree = .ok os2 := txouts_tree_head htxo
    obtain ⟨hiff, hok⟩ := ih htreeok
    constructor
    · simp only [Ctv.spending_tx]
      rw [hwit, htxo]
      simp only []
      rw [hsp]
      simp only []
      constructor
      · intro _
        simp only [Ctv.pathMissingSeq, List.isEmpty_cons, Bool.false_or]
        exact hiff.1 ⟨e, hsp⟩
      · intro _
        exact ⟨e, rfl⟩
    · intro txs h
      simp only [Ctv.spending_tx] at h
      rw [hwit, htxo] at h
      simp only [] at h
      rw [hsp] at h
      simp at h
  case case6 wit output htxo hnotree hwit =>
    rename_i outs _ _ _ _
    obtain ⟨os, hosv⟩ := hos
    obtain ⟨hsh, hc⟩ := (ctv_ok_iff_txouts_ok _).2 ⟨os, hosv⟩
    have hwit2 := witness_of_ctv_ok hc
    rw [hwit] at hwit2
    simp only [Except.ok.injEq] at hwit2
    constructor
    · constructor
      · intro ⟨e, he⟩
        simp only [Ctv.spending_tx] at he
        rw [hwit, htxo] at he
        match outs, hnotree, he with
        | [], _, he => simp at he
        | .Address a amt :: tail, _, he => simp at he
        | .Data d :: tail, _, he => simp at he
        | .Tree t amt :: tail, hno, _ => exact absurd rfl (fun hh => hno t amt tail hh)
      · intro hpath
        match outs, hnotree, hpath with
        | [], _, hpath => simp [Ctv.pathMissingSeq] at hpath
        | .Address a amt :: tail, _, hpath => simp [Ctv.pathMissingSeq] at hpath
        | .Data d :: tail, _, hpath => simp [Ctv.pathMissingSeq] at hpath
        | .Tree t amt :: tail, hno, _ => exact absurd rfl (fun hh => hno t amt tail hh)
    · intro txs h
      simp only [Ctv.spending_tx] at h
      rw [hwit, htxo] at h
      match outs, hnotree, h with
      | [], _, h =>
        simp only [Except.ok.injEq] at h
        subst h
        exact ⟨_, _, hsh, _, [], _, rfl, rfl, rfl, rfl, hc, by rw [hwit2]⟩
      | .Address a amt :: tail, _, h =>
        simp only [Except.ok.injEq] at h
        subst h
        exact ⟨_, _, hsh, _, [], _, rfl, rfl, rfl, rfl, hc, by rw [hwit2]⟩
      | .Data d :: tail, _, h =>
        simp only [Except.ok.injEq] at h
        subst h
        exact ⟨_, _, hsh, _, [], _, rfl, rfl, rfl, rfl, hc, by rw [hwit2]⟩
      | .Tree t amt :: tail, hno, _ => exact absurd rfl (fun hh => hno t amt tail hh)

/-- Counterexample to C6 as stated: `badAddrTemplate` has a sequence at every
template along the followed path, yet the spending chain fails, because its
address does not validate against the template network. -/
theorem spending_error_without_missing_sequence :
    Ctv.pathMissingSeq badAddrTemplate = false ∧
      Ctv.spending_tx badAddrTemplate fundingTxid 0 =
        .error (.err "address is not valid for network") :=
  ⟨rfl, rfl⟩

/-- Witness for `spending_tx_error_characterization` on the concrete
depth-two template. -/
theorem spending_tx_error_characterization_witness :
    Ctv.txouts outerTemplate = .ok outerTxouts ∧
      ((∃ e, Ctv.spending_tx outerTemplate fundingTxid 0 = .error e) ↔
        outerTemplate.pathMissingSeq = true) :=
  ⟨by rfl,
   (spending_tx_error_characterization outerTemplate fundingTxid 0 ⟨outerTxouts, by rfl⟩).1⟩

/-- One failing output makes the whole output list fail to materialize. -/
theorem outputListTxouts_error_of_mem :
    ∀ (outs : List Output) (network : Network) (o : Output), o ∈ outs →
      ∀ e, o.as_txout network = .error e →
      ∃ e2, outputListTxouts outs network = .error e2 := by
  intro outs network o hmem e he
  induction outs with
  | nil => simp at hmem
  | cons x rest ih =>
    rcases List.mem_cons.1 hmem with heq | hmem2
    · subst heq
      cases hrest : outputListTxouts rest network with
      | error e2 => exact ⟨e, by simp [outputListTxouts, he, hrest]⟩
      | ok ts => exact ⟨e, by simp [outputListTxouts, he, hrest]⟩
    · obtain ⟨e2, he2⟩ := ih hmem2
      cases hx : x.as_txout network with
      | error e3 => exact ⟨e3, by simp [outputListTxouts, hx, he2]⟩
      | ok t => exact ⟨e2, by simp [outputListTxouts, hx, he2]⟩

/-- C7: a template holding an `Address` output that does not validate
against the template's network materializes to a hard error — both the full
transaction and the output list fail, and no partial result is returned. -/
theorem address_mismatch_materialization_fails (c : Ctv) (a : AddressU) (amt : Nat)
    (hmem : Output.Address a amt ∈ c.outputs)
    (hbad : a.is_valid_for_network c.network = false) :
    (∃ e, Ctv.txouts c = .error e) ∧ (∃ e, Ctv.as_tx c = .error e) := by
  have haddr : (Output.Address a amt).as_txout c.network =
      .error (.err "address is not valid for network") := by
    simp [Output.as_txout, AddressU.require_network, hbad]
  obtain ⟨e2, he2⟩ := outputListTxouts_error_of_mem c.outputs c.network _ hmem _ haddr
  refine ⟨⟨e2, ?_⟩, ⟨e2, ?_⟩⟩
  · simp [Ctv.txouts, he2]
  · simp [Ctv.as_tx, he2]

/-- Witness for `address_mismatch_materialization_fails` on the concrete
mismatched template. -/
theorem address_mismatch_materialization_fails_witness :
    (Output.Address ⟨[0, 20] ++ List.replicate 20 7, .testnet, false⟩ 500 ∈
      badAddrTemplate.outputs) ∧
    (∃ e, Ctv.txouts badAddrTemplate = .error e) :=
  ⟨by simp [badAddrTemplate, Ctv.outputs],
   (address_mismatch_materialization_fails badAddrTemplate
      ⟨[0, 20] ++ List.replicate 20 7, .testnet, false⟩ 500
      (by simp [badAddrTemplate, Ctv.outputs]) (by rfl)).1⟩

/-- C8: a `Data` output materializes to a zero-value output whose script is
OP_RETURN followed by a push carrying the data bytes verbatim; data past the
push-size limit is a hard error instead. -/
theorem data_output_materialization (d : String) (network : Network) :
    Output.as_txout (.Data d) network =
      (if (strBytes d).length ≤ pushLimit then
        .ok ⟨0, OP_RETURN :: pushDataEnc (strBytes d)⟩
      else .error (.err "push bytes limit exceeded")) ∧
    ∃ pre, pushDataEnc (strBytes d) = pre ++ strBytes d := by
  constructor
  · simp only [Output.as_txout]
  · simp only [pushDataEnc]
    split_ifs
    · exact ⟨[(strBytes d).length], rfl⟩
    · exact ⟨[76, (strBytes d).length], rfl⟩
    · exact ⟨77 :: le16 (strBytes d).length, by simp⟩
    · exact ⟨78 :: le32 (strBytes d).length, by simp⟩

/-- A push of a 32-byte string is the length byte `0x20` followed by the
bytes. -/
theorem pushDataEnc_len32 {l : List Nat} (h : l.length = 32) : pushDataEnc l = 32 :: l := by
  simp [pushDataEnc, h]

/-- Full characterization of `segwit.vault_locking_script`: the `Amount`
subtraction panics below 600 sats; otherwise the script commits to the
single-output cold and hot templates paying `amount - 600`, assembled into
the two-branch script (the push-limit checks never fail on 32-byte
hashes). -/
theorem vault_locking_script_spec (delay : Nat) (cold hot : AddressU) (network : Network)
    (amount : Nat) :
    segwit.vault_locking_script delay cold hot network amount =
      if amount < 600 then .error (.panicked "Amount subtraction underflow")
      else
        match Ctv.ctv (.mk network 1 0 [0] [.Address cold (amount - 600)]),
              Ctv.ctv (.mk network 1 0 [0] [.Address hot (amount - 600)]) with
        | .ok coldH, .ok hotH =>
          .ok ([OP_IF] ++ segwit.pushInt delay ++ [OP_CSV, OP_DROP] ++ pushDataEnc hotH ++
            [OP_NOP4, OP_ELSE] ++ pushDataEnc coldH ++ [OP_NOP4, OP_ENDIF])
        | .error e, _ => .error e
        | .ok _, .error e => .error e := by
  by_cases h : amount < 600
  · have h2 : ¬ 600 ≤ amount := by omega
    simp [segwit.vault_locking_script, segwit.amountSub, h, h2]
  · have h2 : 600 ≤ amount := by omega
    simp only [segwit.vault_locking_script, segwit.amountSub, if_pos h2, if_neg h]
    cases hc : Ctv.ctv (.mk network 1 0 [0] [.Address cold (amount - 600)]) with
    | error e => simp
    | ok coldH =>
      have hcl : coldH.length = 32 := template_hash_length hc
      have hclim : coldH.length ≤ pushLimit := by rw [hcl]; decide
      simp only [if_pos hclim]
      cases hh : Ctv.ctv (.mk network 1 0 [0] [.Address hot (amount - 600)]) with
      | error e => simp
      | ok hotH =>
        have hhl : hotH.length = 32 := template_hash_length hh
        have hhlim : hotH.length ≤ pushLimit := by rw [hhl]; decide
        simp only [if_pos hhlim]

/-- C4 (amended): the committed hot and cold templates each have exactly one
output paying `amount - 600` to the hot (resp. cold) address; for
`amount < 600` the `Amount` subtraction panics instead of returning a
result, while at exactly 600 sats the construction succeeds with zero-value
outputs (see the counterexample). -/
theorem vault_fee_accounting (delay : Nat) (cold hot : AddressU) (network : Network)
    (amount : Nat) :
    (amount < 600 →
      segwit.vault_locking_script delay cold hot network amount =
        .error (.panicked "Amount subtraction underflow")) ∧
    (∀ s, segwit.vault_locking_script delay cold hot network amount = .ok s →
      600 ≤ amount ∧
      ∃ coldH hotH,
        Ctv.ctv (.mk network 1 0 [0] [.Address cold (amount - 600)]) = .ok coldH ∧
        Ctv.ctv (.mk network 1 0 [0] [.Address hot (amount - 600)]) = .ok hotH ∧
        s = [OP_IF] ++ segwit.pushInt delay ++ [OP_CSV, OP_DROP] ++ pushDataEnc hotH ++
          [OP_NOP4, OP_ELSE] ++ pushDataEnc coldH ++ [OP_NOP4, OP_ENDIF]) := by
  constructor
  · intro h
    rw [vault_locking_script_spec, if_pos h]
  · intro s hs
    rw [vault_locking_script_spec] at hs
    split at hs
    · simp at hs
    · rename_i hlt
      have h600 : 600 ≤ amount := by omega
      split at hs
      · rename_i coldH hotH hc hh
        simp only [Except.ok.injEq] at hs
        exact ⟨h600, coldH, hotH, hc, hh, hs.symm⟩
      · simp at hs
      · simp at hs

/-- Counterexample to C4 as stated: at exactly 600 sats the vault locking
script builds successfully (the subtraction yields zero), it does not fail. -/
theorem vault_amount_600_succeeds :
    segwit.vault_locking_script 10 regtestAddr regtestAddr2 .regtest 600 =
      .ok vaultScript600 :=
  by rfl

/-- Witness for `vault_fee_accounting`: the panic arm at 599 sats and the
success arm at 1000 sats. -/
theorem vault_fee_accounting_witness :
    (segwit.vault_locking_script 10 regtestAddr regtestAddr2 .regtest 599 =
      .error (.panicked "Amount subtraction underflow")) ∧
    (600 ≤ 1000 ∧
      ∃ coldH hotH,
        Ctv.ctv (.mk .regtest 1 0 [0] [.Address regtestAddr (1000 - 600)]) = .ok coldH ∧
        Ctv.ctv (.mk .regtest 1 0 [0] [.Address regtestAddr2 (1000 - 600)]) = .ok hotH ∧
        vaultScript1000 = [OP_IF] ++ segwit.pushInt 10 ++ [OP_CSV, OP_DROP] ++
          pushDataEnc hotH ++ [OP_NOP4, OP_ELSE] ++ pushDataEnc coldH ++
          [OP_NOP4, OP_ENDIF]) :=
  ⟨(vault_fee_accounting 10 regtestAddr regtestAddr2 .regtest 599).1 (by decide),
   (vault_fee_accounting 10 regtestAddr regtestAddr2 .regtest 1000).2 vaultScript1000 (by rfl)⟩

/-- C5: a successfully built vault locking script is exactly two mutually
exclusive branches behind a leading OP_IF: the true branch pushes the delay,
applies OP_CSV, drops the value, pushes the 32-byte hot commitment and
applies the CTV opcode; the false branch pushes the 32-byte cold commitment
and applies the CTV opcode with no timelock. -/
theorem vault_script_two_branches (delay : Nat) (cold hot : AddressU) (network : Network)
    (amount : Nat) (s : List Nat)
    (h : segwit.vault_locking_script delay cold hot network amount = .ok s) :
    ∃ hotH coldH,
      Ctv.ctv (.mk network 1 0 [0] [.Address hot (amount - 600)]) = .ok hotH ∧
      Ctv.ctv (.mk network 1 0 [0] [.Address cold (amount - 600)]) = .ok coldH ∧
      hotH.length = 32 ∧ coldH.length = 32 ∧
      s = [OP_IF] ++ segwit.pushInt delay ++ [OP_CSV, OP_DROP] ++ (32 :: hotH) ++ [OP_NOP4] ++
        [OP_ELSE] ++ (32 :: coldH) ++ [OP_NOP4] ++ [OP_ENDIF] := by
  obtain ⟨-, coldH, hotH, hc, hh, hs⟩ := (vault_fee_accounting delay cold hot network amount).2 s h
  have hhl : hotH.length = 32 := template_hash_length hh
  have hcl : coldH.length = 32 := template_hash_length hc
  refine ⟨hotH, coldH, hh, hc, hhl, hcl, ?_⟩
  rw [hs, pushDataEnc_len32 hhl, pushDataEnc_len32 hcl]
  simp

/-- Witness for `vault_script_two_branches` at 1000 sats on regtest. -/
theorem vault_script_two_branches_witness :
    segwit.vault_locking_script 10 regtestAddr regtestAddr2 .regtest 1000 =
      .ok vaultScript1000 ∧
    ∃ hotH coldH,
      Ctv.ctv (.mk .regtest 1 0 [0] [.Address regtestAddr2 (1000 - 600)]) = .ok hotH ∧
      Ctv.ctv (.mk .regtest 1 0 [0] [.Address regtestAddr (1000 - 600)]) = .ok coldH ∧
      hotH.length = 32 ∧ coldH.length = 32 ∧
      vaultScript1000 = [OP_IF] ++ segwit.pushInt 10 ++ [OP_CSV, OP_DROP] ++ (32 :: hotH) ++
        [OP_NOP4] ++ [OP_ELSE] ++ (32 :: coldH) ++ [OP_NOP4] ++ [OP_ENDIF] :=
  ⟨by rfl,
   vault_script_two_branches 10 regtestAddr regtestAddr2 .regtest 1000 vaultScript1000 (by rfl)⟩

/-- C10: the template-level commitment `Ctv::ctv` is the hash of the
materialized transaction at input index 0 and is always exactly 32 bytes;
the witness and the `Tree` output script both commit through that same
index-0 hash. -/
theorem template_commitment_index_zero (c : Ctv) :
    (∀ tx, Ctv.as_tx c = .ok tx →
      Ctv.ctv c = .ok (util.ctv tx 0) ∧ (util.ctv tx 0).length = 32 ∧
      Ctv.witness c = .ok [pushDataEnc (util.ctv tx 0) ++ [OP_NOP4]]) ∧
    (∀ (tree : Ctv) (amt : Nat) (network : Network) (t : TxOut),
      Output.as_txout (.Tree tree amt) network = .ok t →
      ∃ tx2, Ctv.as_tx tree = .ok tx2 ∧
        t = ⟨amt, (AddressU.p2wsh (pushDataEnc (util.ctv tx2 0) ++ [OP_NOP4]) network).spk⟩) := by
  constructor
  · intro tx htx
    have hctv : Ctv.ctv c = .ok (util.ctv tx 0) := by
      rw [ctv_eq_as_tx, htx]
    exact ⟨hctv, ctv_hash_length tx 0, witness_of_ctv_ok hctv⟩
  · intro tree amt network t ht
    simp only [Output.as_txout] at ht
    cases hc : Ctv.ctv tree with
    | error e => rw [hc] at ht; simp at ht
    | ok tmplhash =>
      rw [hc] at ht
      have hl := template_hash_length hc
      simp only [segwit.locking_script, if_pos hl] at ht
      simp only [Except.ok.injEq] at ht
      have heq := ctv_eq_as_tx tree
      rw [hc] at heq
      cases ha : Ctv.as_tx tree with
      | error e => rw [ha] at heq; simp at heq
      | ok tx2 =>
        rw [ha] at heq
        simp only [Except.ok.injEq] at heq
        exact ⟨tx2, rfl, by rw [← ht, heq]⟩

/-- Witness for `template_commitment_index_zero` on the concrete leaf
template. -/
theorem template_commitment_index_zero_witness :
    Ctv.as_tx innerTemplate = .ok innerTx ∧
      Ctv.ctv innerTemplate = .ok (util.ctv innerTx 0) ∧
      (util.ctv innerTx 0).length = 32 :=
  ⟨by rfl,
   ((template_commitment_index_zero innerTemplate).1 innerTx (by rfl)).1,
   ((template_commitment_index_zero innerTemplate).1 innerTx (by rfl)).2.1⟩

/-- Round-trip of the network display form. -/
theorem network_fromText_toText (n : Network) : Network.fromText n.toText = some n := by
  cases n <;> rfl

/-- Round-trip of `u32` sequence lists through JSON numbers. -/
theorem deU32List_map (seqs : List Nat)
    (h : seqs.all (fun sq => decide (sq < 4294967296)) = true) :
    deU32List (seqs.map (fun (sq : Nat) => Json.jnum (sq : Int))) = some seqs := by
  induction seqs with
  | nil => simp [deU32List]
  | cons a rest ih =>
    simp only [List.all_cons, Bool.and_eq_true, decide_eq_true_eq] at h
    rw [List.map_cons]
    simp only [deU32List]
    rw [ih h.2]
    simp [deU32, Int.ofNat_eq_coe, h.1]

/-- An in-range `i32` value survives the JSON number round-trip. -/
theorem deI32_of_range {v : Int} (h1 : -2147483648 ≤ v) (h2 : v < 2147483648) :
    deI32 (.jnum v) = some v := by
  cases v with
  | ofNat n =>
    rw [Int.ofNat_eq_coe] at h2
    have hn : n < 2147483648 := by exact_mod_cast h2
    simp [deI32, hn]
  | negSucc n =>
    rw [Int.negSucc_eq] at h1
    have hn : n < 2147483648 := by omega
    simp [deI32, hn]

/-- An in-range `u32` value survives the JSON number round-trip. -/
theorem deU32_natCast {n : Nat} (h : n < 4294967296) : deU32 (.jnum (n : Int)) = some n := by
  simp [deU32, Int.ofNat_eq_coe, h]

/-- An in-range `u64` value survives the JSON number round-trip. -/
theorem deU64_natCast {n : Nat} (h : n < 18446744073709551616) :
    deU64 (.jnum (n : Int)) = some n := by
  simp [deU64, Int.ofNat_eq_coe, h]

/-- Fuel-indexed round-trip: a representable value serialized within the
fuel bound deserializes to itself. -/
theorem json_roundtrip_aux :
    ∀ fuel : Nat,
      (∀ c : Ctv, Ctv.wf c = true → jsonSize (Ctv.toJson c) ≤ fuel →
        ctvFromJsonAux fuel (Ctv.toJson c) = some c) ∧
      (∀ o : Output, Output.wf o = true → jsonSize (Output.toJson o) ≤ fuel →
        outputFromJsonAux fuel (Output.toJson o) = some o) ∧
      (∀ os : List Output, outputListWf os = true →
        jsonSizeList (outputListToJson os) < fuel →
        outputListFromJsonAux fuel (outputListToJson os) = some os) := by
  intro fuel
  induction fuel with
  | zero =>
    refine ⟨?_, ?_, ?_⟩
    · intro c hwf hsz
      cases c with
      | mk network version locktime seqs outs => simp [Ctv.toJson, jsonSize] at hsz
    · intro o hwf hsz
      cases o <;> simp [Output.toJson, jsonSize] at hsz
    · intro os hwf hsz
      omega
  | succ fuel ih =>
    obtain ⟨ihC, ihO, ihL⟩ := ih
    refine ⟨?_, ?_, ?_⟩
    · intro c hwf hsz
      cases c with
      | mk network version locktime seqs outs =>
        simp only [Ctv.wf, Bool.and_eq_true, decide_eq_true_eq] at hwf
        obtain ⟨⟨⟨⟨hv1, hv2⟩, hl⟩, hseqs⟩, houts⟩ := hwf
        have hsize : jsonSizeList (outputListToJson outs) < fuel := by
          simp only [Ctv.toJson, jsonSize, jsonSizeFields, jsonSizeList] at hsz
          omega
        simp [Ctv.toJson, ctvFromJsonAux, getField, deStr, network_fromText_toText,
          deI32_of_range hv1 hv2, deU32_natCast hl, deU32List_map seqs hseqs,
          ihL outs houts hsize]
    · intro o hwf hsz
      cases o with
      | Address address amount =>
        simp only [Output.wf, decide_eq_true_eq] at hwf
        simp [Output.toJson, outputFromJsonAux, deAddressVariant, getField, deAddr,
          deU64_natCast hwf]
      | Data d =>
        simp [Output.toJson, outputFromJsonAux, deAddressVariant, deDataVariant, getField,
          deStr]
      | Tree tree amount =>
        simp only [Output.wf, Bool.and_eq_true, decide_eq_true_eq] at hwf
        obtain ⟨hamt, htree⟩ := hwf
        have hs2 : jsonSize (Ctv.toJson tree) ≤ fuel := by
          simp only [Output.toJson, jsonSize, jsonSizeFields] at hsz
          omega
        simp [Output.toJson, outputFromJsonAux, deAddressVariant, deDataVariant, getField,
          ihC tree htree hs2, deU64_natCast hamt]
    · intro os hwf hsz
      cases os with
      | nil => simp [outputListToJson, outputListFromJsonAux]
      | cons o rest =>
        simp only [outputListWf, Bool.and_eq_true] at hwf
        obtain ⟨ho, hrest⟩ := hwf
        simp only [outputListToJson, jsonSizeList] at hsz
        simp [outputListToJson, outputListFromJsonAux, ihO o ho (by omega),
          ihL rest hrest (by omega)]

/-- C9: serializing a representable template to the structured text
interchange form and deserializing it back recovers the template exactly,
for every output variant and arbitrary `Tree` nesting — the untagged
encoding is lossless, the variant being recovered from which field set is
present. -/
theorem template_json_roundtrip (c : Ctv) (h : Ctv.wf c = true) :
    Ctv.fromJson (Ctv.toJson c) = some c := by
  rw [Ctv.fromJson]
  exact (json_roundtrip_aux (jsonSize (Ctv.toJson c))).1 c h (le_refl _)

/-- Witness for `template_json_roundtrip` on a template exercising all three
output variants and a nested tree. -/
theorem template_json_roundtrip_witness :
    Ctv.wf mixedTemplate = true ∧
      Ctv.fromJson (Ctv.toJson mixedTemplate) = some mixedTemplate :=
  ⟨by decide, template_json_roundtrip mixedTemplate (by decide)⟩
